import Mathlib

/-!
Shallow embedding of the SPSA optimization demo
(src/demonstrations/tutorial_spsa.py) and of the SPSA optimizer core it
drives.  The demo file delegates the optimizer loop to the external
`noisyopt.minimizeSPSA` routine; the iteration mathematics is stated in the
module docstring (lines 90-114) and the surrounding specification, so the
optimizer core below is modelled from those formulas, while the driver-side
script state (callback, device-execution counters, name rebinding) is
embedded directly from the Python statements in the file.
-/

namespace SPSA

/-- Parameter vectors: ordered, fixed-length sequences of reals. -/
abbrev Vec := List ℝ

/-- Hyperparameters of the optimizer: gain scale `a`, perturbation scale `c`,
stability offset `A`, decay exponents `alpha` and `gamma`. -/
structure Hyper where
  a : ℝ
  c : ℝ
  A : ℝ
  alpha : ℝ
  gamma : ℝ

/-- Optimizer state: immutable hyperparameters plus the iteration counter. -/
structure OptState where
  hp : Hyper
  k : ℕ

/-- Modelled from the spec: the step-size gain schedule
`a_k = a / (k + 1 + A) ^ alpha` (the schedule formula of the missing
`noisyopt` implementation, as fixed by the specification). -/
noncomputable def aGain (a A alpha : ℝ) (k : ℕ) : ℝ :=
  a / ((k : ℝ) + 1 + A) ^ alpha

/-- Modelled from the spec: the perturbation-size schedule
`c_k = c / (k + 1) ^ gamma`. -/
noncomputable def cPert (c gamma : ℝ) (k : ℕ) : ℝ :=
  c / ((k : ℝ) + 1) ^ gamma

/-- The positively perturbed evaluation point `theta + c_k * Delta`
(docstring line 106). -/
def thetaPlus (ck : ℝ) (theta Delta : Vec) : Vec :=
  List.zipWith (fun t d => t + ck * d) theta Delta

/-- The negatively perturbed evaluation point `theta - c_k * Delta`
(docstring line 107). -/
def thetaMinus (ck : ℝ) (theta Delta : Vec) : Vec :=
  List.zipWith (fun t d => t - ck * d) theta Delta

/-- The component-wise gradient estimate
`ghat_i = (y_plus - y_minus) / (2 * c_k * Delta_i)`
(docstring lines 106-107). -/
noncomputable def ghat (ck yplus yminus : ℝ) (Delta : Vec) : Vec :=
  Delta.map (fun d => (yplus - yminus) / (2 * ck * d))

/-- The parameter update `theta_next = theta - a_k * ghat` applied
component-wise (docstring line 94). -/
def updateTheta (ak : ℝ) (theta g : Vec) : Vec :=
  List.zipWith (fun t gi => t - ak * gi) theta g

/-- The two evaluation points queried by one SPSA step: only
`theta + c_k * Delta` and `theta - c_k * Delta`. -/
def stepQueries (ck : ℝ) (theta Delta : Vec) : List Vec :=
  [thetaPlus ck theta Delta, thetaMinus ck theta Delta]

/-- One SPSA step at fixed schedule values: evaluate the cost at the two
perturbed points and update the parameters from those two results. -/
noncomputable def stepCore (cost : Vec → ℝ) (ak ck : ℝ) (theta Delta : Vec) : Vec :=
  let yplus := cost (thetaPlus ck theta Delta)
  let yminus := cost (thetaMinus ck theta Delta)
  updateTheta ak theta (ghat ck yplus yminus Delta)

/-- A full SPSA step on the optimizer state: compute `a_k`, `c_k` from the
pre-call counter `k`, perform the core update, and increment `k` by one. -/
noncomputable def step (cost : Vec → ℝ) (st : OptState) (theta Delta : Vec) :
    OptState × Vec :=
  let ak := aGain st.hp.a st.hp.A st.hp.alpha st.k
  let ck := cPert st.hp.c st.hp.gamma st.k
  ({ st with k := st.k + 1 }, stepCore cost ak ck theta Delta)

/-- Error taxonomy of the optimizer (spec section 7). -/
inductive SPSAError
  | invalidHyperparameter
  | dimensionMismatch
  deriving DecidableEq

/-- Modelled from the spec: the optimizer constructor of the missing
`noisyopt` core validates `a, c, A > 0` at construction time and raises
`InvalidHyperparameter` otherwise.  It receives no cost function, so no cost
evaluation can occur before or during a construction failure. -/
noncomputable def mkOptimizer (a c A alpha gamma : ℝ) : Except SPSAError OptState :=
  if 0 < a ∧ 0 < c ∧ 0 < A then
    Except.ok ⟨⟨a, c, A, alpha, gamma⟩, 0⟩
  else
    Except.error SPSAError.invalidHyperparameter

/-- Modelled from the spec: one SPSA step with a fallible cost function.
Any error raised by either of the two evaluations propagates unchanged; an
updated state (with the incremented counter) exists only in the success
case, so a failed step leaves the caller with the pre-call state. -/
noncomputable def stepE {ε : Type} (cost : Vec → Except ε ℝ) (st : OptState)
    (theta Delta : Vec) : Except ε (OptState × Vec) := do
  let ak := aGain st.hp.a st.hp.A st.hp.alpha st.k
  let ck := cPert st.hp.c st.hp.gamma st.k
  let yplus ← cost (thetaPlus ck theta Delta)
  let yminus ← cost (thetaMinus ck theta Delta)
  pure ({ st with k := st.k + 1 }, updateTheta ak theta (ghat ck yplus yminus Delta))

/-- Modelled from the spec: one update of a seedable pseudo-random generator
state (a linear congruential step), standing for the seeded generator behind
np.random in the source (src line 163 seeds it once). -/
def lcgNext (s : ℕ) : ℕ := (1103515245 * s + 12345) % 4294967296

/-- Modelled from the spec: one Bernoulli ±1 sign read off a generator
state. -/
noncomputable def signOf (s : ℕ) : ℝ := if (s / 65536) % 2 = 0 then 1 else -1

/-- Modelled from the spec: draw a length-`p` perturbation vector of ±1
signs, threading the generator state. -/
noncomputable def drawDelta : ℕ → ℕ → Vec × ℕ
  | 0, s => ([], s)
  | n + 1, s =>
      let s1 := lcgNext s
      let rest := drawDelta n s1
      (signOf s1 :: rest.1, rest.2)

/-- Modelled from the spec: the run loop as a relation.
`Traj cost st theta s n t` holds when `t` is the sequence of parameter
iterates produced by `n` SPSA steps starting from optimizer state `st`,
parameter vector `theta` and generator state `s`, with each iteration's
perturbation drawn from the threaded seeded generator. -/
inductive Traj (cost : Vec → ℝ) : OptState → Vec → ℕ → ℕ → List Vec → Prop
  | done (st : OptState) (theta : Vec) (s : ℕ) : Traj cost st theta s 0 [theta]
  | more (st : OptState) (theta : Vec) (s : ℕ) (n : ℕ) (t : List Vec) :
      Traj cost (step cost st theta (drawDelta theta.length s).1).1
        ((step cost st theta (drawDelta theta.length s).1).2)
        ((drawDelta theta.length s).2) n t →
      Traj cost st theta s (n + 1) (theta :: t)

/-- The evaluation points at which callback_fn queries the cost function
when invoked with the iterate xk: exactly one call, cost(xk)
(src lines 200-205). -/
def callbackQueries (xk : Vec) : List Vec := [xk]

/-- All cost-function evaluation points occurring during one completed
iteration of the driver loop with the per-iteration history callback
attached: the two step queries followed by the callback's query at the
updated iterate. -/
noncomputable def iterQueriesWithCallback (cost : Vec → ℝ) (st : OptState)
    (theta Delta : Vec) : List Vec :=
  stepQueries (cPert st.hp.c st.hp.gamma st.k) theta Delta ++
    callbackQueries (step cost st theta Delta).2

end SPSA

namespace Tutorial

/-- A Python value bound to the name device_execs_spsa over the script's
lifetime: first a list of per-iteration counter snapshots, later a single
scalar count. -/
inductive PyVal
  | list (xs : List ℕ)
  | nat (n : ℕ)
  deriving DecidableEq

/-- The script-level mutable state of the tutorial touched by the claims:
the device execution counter of dev_sampler and the history collections. -/
structure ScriptState where
  num_executions : ℕ
  cost_store_spsa : List ℝ
  device_execs_spsa : PyVal
  device_execs_grad : List ℕ
  cost_store_grad : List ℝ

/-- Effect of callback_fn (src lines 200-205) on the script state: the
cost(xk) call performs `e` further device executions, then the cost value
and the current execution count are appended to the history collections.
The device_execs_spsa name still holds the list at this point, as in the
source, where the rebinding happens only after minimizeSPSA returns. -/
def callback_fn (costVal : ℝ) (e : ℕ) (s : ScriptState) : ScriptState :=
  let cnt := s.num_executions + e
  { s with
    num_executions := cnt
    cost_store_spsa := s.cost_store_spsa ++ [costVal]
    device_execs_spsa :=
      match s.device_execs_spsa with
      | PyVal.list xs => PyVal.list (xs ++ [cnt])
      | v => v }

/-- One iteration of the minimizeSPSA driver as seen by the script state:
the step's two cost evaluations execute the device `e2` times in total,
then callback_fn runs, its own cost call adding `e1` executions. -/
def spsaIter (costVal : ℝ) (e2 e1 : ℕ) (s : ScriptState) : ScriptState :=
  callback_fn costVal e1 { s with num_executions := s.num_executions + e2 }

/-- The SPSA optimization block up to (not including) line 260: line 198
initialises device_execs_spsa to the empty list, then the driver loop runs
once per iteration record. -/
def spsaBlockBeforeRebind (iters : List (ℝ × ℕ × ℕ)) (s : ScriptState) :
    ScriptState :=
  iters.foldl (fun acc it => spsaIter it.1 it.2.1 it.2.2 acc)
    { s with device_execs_spsa := PyVal.list [], cost_store_spsa := [] }

/-- Line 260: device_execs_spsa = dev_sampler.num_executions — rebinds the
name to the scalar counter value. -/
def rebindDeviceExecsSPSA (s : ScriptState) : ScriptState :=
  { s with device_execs_spsa := PyVal.nat s.num_executions }

/-- The whole SPSA block of the script, rebinding included. -/
def spsaBlock (iters : List (ℝ × ℕ × ℕ)) (s : ScriptState) : ScriptState :=
  rebindDeviceExecsSPSA (spsaBlockBeforeRebind iters s)

/-- The per-iteration snapshots recorded by callback_fn: after each
iteration the counter has grown by that iteration's two execution
increments, and its current value is appended. -/
def snapshots (c0 : ℕ) : List (ℝ × ℕ × ℕ) → List ℕ
  | [] => []
  | it :: rest => (c0 + it.2.1 + it.2.2) :: snapshots (c0 + it.2.1 + it.2.2) rest

/-- Line 271: dev_sampler._num_executions = 0 — resets the device execution
counter through the private attribute. -/
def resetExecs (s : ScriptState) : ScriptState := { s with num_executions := 0 }

/-- One iteration of the gradient-descent comparison loop (lines 279-283):
opt.step_and_cost evaluates the circuit, performing `e` device executions,
then the current counter value and the cost value are appended. -/
def gradIter (val : ℝ) (e : ℕ) (s : ScriptState) : ScriptState :=
  let cnt := s.num_executions + e
  { s with
    num_executions := cnt
    device_execs_grad := s.device_execs_grad ++ [cnt]
    cost_store_grad := s.cost_store_grad ++ [val] }

/-- The gradient-descent comparison block (lines 269-283): reset the
counter, empty the histories, then run the loop once per iteration
record. -/
def gradBlock (iters : List (ℝ × ℕ)) (s : ScriptState) : ScriptState :=
  iters.foldl (fun acc it => gradIter it.1 it.2 acc)
    { resetExecs s with device_execs_grad := [], cost_store_grad := [] }

/-- The counter snapshots recorded by the gradient-descent loop starting
from counter value `c0`. -/
def gradSnapshots (c0 : ℕ) : List (ℝ × ℕ) → List ℕ
  | [] => []
  | it :: rest => (c0 + it.2) :: gradSnapshots (c0 + it.2) rest

end Tutorial

open SPSA Tutorial

/-- Claim C2: for every iteration the gradient estimate is
`ghat_i = (y_plus - y_minus) / (2 * c_k * Delta_i)`; because every
perturbation entry is in {-1, +1} (and `c_k > 0`), the denominator is never
zero and the estimate equals a sign-multiply of `(y_plus - y_minus) / (2 * c_k)`. -/
theorem ghat_safe_sign_multiply (ck yplus yminus : ℝ) (Delta : Vec)
    (hck : 0 < ck) (hD : ∀ d ∈ Delta, d = 1 ∨ d = -1) :
    (∀ d ∈ Delta, 2 * ck * d ≠ 0) ∧
    ghat ck yplus yminus Delta
      = Delta.map (fun d => d * ((yplus - yminus) / (2 * ck))) := by
  have hck0 : ck ≠ 0 := ne_of_gt hck
  constructor
  · intro d hd
    rcases hD d hd with h | h <;> subst h <;> intro hc <;> nlinarith
  · unfold SPSA.ghat
    refine List.map_congr_left ?_
    intro d hd
    rcases hD d hd with h | h <;> subst h
    · rw [mul_one, one_mul]
    · have h2 : 2 * ck * (-1 : ℝ) = -(2 * ck) := by ring
      rw [h2, div_neg, neg_one_mul]

/-- Witness for C2 at the concrete input `ck = 1`, `y_plus = 5`,
`y_minus = 3`, `Delta = [1, -1]`. -/
theorem ghat_safe_sign_multiply_witness :
    (∀ d ∈ ([1, -1] : Vec), 2 * 1 * d ≠ 0) ∧
    ghat 1 5 3 [1, -1]
      = ([1, -1] : Vec).map (fun d => d * ((5 - 3) / (2 * 1))) :=
  ghat_safe_sign_multiply 1 5 3 [1, -1] one_pos
    (by intro d hd; simpa using hd)

/-- Claim C3: for every iteration `k` and positive hyperparameters, the
schedule values `a_k = a / (k + 1 + A) ^ alpha` and `c_k = c / (k + 1) ^ gamma`
are strictly positive, and both sequences strictly decrease in `k`. -/
theorem schedules_pos_strict_anti (a c A alpha gamma : ℝ)
    (ha : 0 < a) (hc : 0 < c) (hA : 0 < A) (halpha : 0 < alpha)
    (hgamma : 0 < gamma) (k : ℕ) :
    0 < aGain a A alpha k ∧ 0 < cPert c gamma k ∧
    aGain a A alpha (k + 1) < aGain a A alpha k ∧
    cPert c gamma (k + 1) < cPert c gamma k := by
  have hbase1 : (0 : ℝ) < (k : ℝ) + 1 + A := by positivity
  have hbase2 : (0 : ℝ) < (k : ℝ) + 1 := by positivity
  refine ⟨?_, ?_, ?_, ?_⟩
  · exact div_pos ha (Real.rpow_pos_of_pos hbase1 alpha)
  · exact div_pos hc (Real.rpow_pos_of_pos hbase2 gamma)
  · unfold SPSA.aGain
    push_cast
    refine div_lt_div_of_pos_left ha (Real.rpow_pos_of_pos hbase1 alpha) ?_
    exact Real.rpow_lt_rpow (le_of_lt hbase1) (by linarith) halpha
  · unfold SPSA.cPert
    push_cast
    refine div_lt_div_of_pos_left hc (Real.rpow_pos_of_pos hbase2 gamma) ?_
    exact Real.rpow_lt_rpow (le_of_lt hbase2) (by linarith) hgamma

/-- Witness for C3 at the concrete input `a = c = A = alpha = gamma = 1`,
`k = 0`. -/
theorem schedules_pos_strict_anti_witness :
    0 < aGain 1 1 1 0 ∧ 0 < cPert 1 1 0 ∧
    aGain 1 1 1 1 < aGain 1 1 1 0 ∧ cPert 1 1 1 < cPert 1 1 0 :=
  schedules_pos_strict_anti 1 1 1 1 1 one_pos one_pos one_pos one_pos
    one_pos 0

/-- Claim C6: constructing an optimizer with any of `a`, `c`, `A`
non-positive yields the `InvalidHyperparameter` error at construction time;
the constructor receives no cost function, so no cost evaluation can occur
before or during the failure. -/
theorem mkOptimizer_rejects_nonpositive (a c A alpha gamma : ℝ)
    (h : a ≤ 0 ∨ c ≤ 0 ∨ A ≤ 0) :
    mkOptimizer a c A alpha gamma
      = Except.error SPSAError.invalidHyperparameter := by
  unfold SPSA.mkOptimizer
  rw [if_neg]
  rintro ⟨h1, h2, h3⟩
  rcases h with h | h | h <;> linarith

/-- Witness for C6 at the concrete inputs `a = 0` and `c = -1`. -/
theorem mkOptimizer_rejects_nonpositive_witness :
    mkOptimizer 0 1 1 1 1 = Except.error SPSAError.invalidHyperparameter ∧
    mkOptimizer 1 (-1) 1 1 1
      = Except.error SPSAError.invalidHyperparameter :=
  ⟨mkOptimizer_rejects_nonpositive 0 1 1 1 1 (Or.inl le_rfl),
   mkOptimizer_rejects_nonpositive 1 (-1) 1 1 1 (Or.inr (Or.inl (by norm_num)))⟩

/-- Claim C8: for every input vector of length `p ≥ 1` (and a matching
perturbation vector), a successful step returns a vector of exactly the
input's length. -/
theorem step_output_length (cost : Vec → ℝ) (st : OptState)
    (theta Delta : Vec) (hpos : 1 ≤ theta.length)
    (hlen : Delta.length = theta.length) :
    ((step cost st theta Delta).2).length = theta.length := by
  clear hpos
  simp [SPSA.step, SPSA.stepCore, SPSA.updateTheta, SPSA.ghat, hlen]

/-- Witness for C8 at the concrete input `theta = [0]`, `Delta = [1]`. -/
theorem step_output_length_witness :
    ((step (fun _ => 0) ⟨⟨1, 1, 1, 1, 1⟩, 0⟩ [0] [1]).2).length
      = ([0] : Vec).length :=
  step_output_length (fun _ => 0) ⟨⟨1, 1, 1, 1, 1⟩, 0⟩ [0] [1]
    (by decide) rfl

/-- Claim C1 (amended): the SPSA step itself evaluates the cost function at
exactly two points, and the produced update depends on the cost function
only through its values at those two points — two cost functions agreeing
there produce identical step results. -/
theorem stepCore_two_evaluations (ak ck : ℝ) (theta Delta : Vec)
    (cost1 cost2 : Vec → ℝ)
    (h1 : cost1 (thetaPlus ck theta Delta) = cost2 (thetaPlus ck theta Delta))
    (h2 : cost1 (thetaMinus ck theta Delta) = cost2 (thetaMinus ck theta Delta)) :
    (stepQueries ck theta Delta).length = 2 ∧
    stepCore cost1 ak ck theta Delta = stepCore cost2 ak ck theta Delta := by
  refine ⟨rfl, ?_⟩
  unfold SPSA.stepCore
  rw [h1, h2]

/-- Witness for the amended C1 at a concrete input with two definitionally
equal cost functions. -/
theorem stepCore_two_evaluations_witness :
    (stepQueries 1 [0] [1]).length = 2 ∧
    stepCore (fun _ => 0) 1 1 [0] [1] = stepCore (fun _ => 0) 1 1 [0] [1] :=
  stepCore_two_evaluations 1 1 [0] [1] (fun _ => 0) (fun _ => 0) rfl rfl

/-- Counterexample to C1 as stated: in the tutorial the per-iteration
history hook callback_fn itself calls the cost function once
(src lines 200-205), so during one completed iteration of the driver with
the callback attached, three cost evaluations occur, not exactly two. -/
theorem callback_iteration_has_three_queries :
    (iterQueriesWithCallback (fun _ => 0) ⟨⟨1, 1, 1, 1, 1⟩, 0⟩ [0] [1]).length
        = 3 ∧ (3 : ℕ) ≠ 2 := by
  constructor
  · rfl
  · decide

/-- Claim C4: a successful step at iteration counter `k` returns the vector
`theta - a_k * ghat` computed component-wise with `a_k` taken from the
pre-call counter value, and the counter is incremented by exactly one. -/
theorem step_update_rule (cost : Vec → ℝ) (st : OptState)
    (theta Delta : Vec) (i : ℕ)
    (hi1 : i < ((step cost st theta Delta).2).length)
    (hi2 : i < theta.length)
    (hi3 : i < (ghat (cPert st.hp.c st.hp.gamma st.k)
      (cost (thetaPlus (cPert st.hp.c st.hp.gamma st.k) theta Delta))
      (cost (thetaMinus (cPert st.hp.c st.hp.gamma st.k) theta Delta))
      Delta).length) :
    (step cost st theta Delta).1.k = st.k + 1 ∧
    ((step cost st theta Delta).2).get ⟨i, hi1⟩
      = theta.get ⟨i, hi2⟩ -
          aGain st.hp.a st.hp.A st.hp.alpha st.k *
            (ghat (cPert st.hp.c st.hp.gamma st.k)
              (cost (thetaPlus (cPert st.hp.c st.hp.gamma st.k) theta Delta))
              (cost (thetaMinus (cPert st.hp.c st.hp.gamma st.k) theta Delta))
              Delta).get ⟨i, hi3⟩ := by
  refine ⟨rfl, ?_⟩
  simp [SPSA.step, SPSA.stepCore, SPSA.updateTheta, List.get_eq_getElem,
    List.getElem_zipWith]

/-- Witness for C4 at the concrete input `theta = [0]`, `Delta = [1]`,
index 0. -/
theorem step_update_rule_witness :
    (step (fun _ => 0) ⟨⟨1, 1, 1, 1, 1⟩, 0⟩ [0] [1]).1.k = 0 + 1 ∧
    ((step (fun _ => 0) ⟨⟨1, 1, 1, 1, 1⟩, 0⟩ [0] [1]).2).get
        ⟨0, by simp [SPSA.step, SPSA.stepCore, SPSA.updateTheta, SPSA.ghat]⟩
      = ([0] : Vec).get ⟨0, by simp⟩ -
          aGain 1 1 1 0 *
            (ghat (cPert 1 1 0)
              ((fun _ => (0 : ℝ)) (thetaPlus (cPert 1 1 0) [0] [1]))
              ((fun _ => (0 : ℝ)) (thetaMinus (cPert 1 1 0) [0] [1]))
              [1]).get ⟨0, by simp [SPSA.ghat]⟩ :=
  step_update_rule (fun _ => 0) ⟨⟨1, 1, 1, 1, 1⟩, 0⟩ [0] [1] 0
    (by simp [SPSA.step, SPSA.stepCore, SPSA.updateTheta, SPSA.ghat])
    (by simp) (by simp [SPSA.ghat])

/-- Claim C5: if either cost evaluation of a step fails — the first
(y_plus) or the second (y_minus) — the whole step fails with an error and
produces no updated optimizer state, so a retry with the same pre-call
state reproduces the same schedule values. -/
theorem stepE_eval_error {ε : Type} (cost : Vec → Except ε ℝ)
    (st : OptState) (theta Delta : Vec)
    (h : (∃ e, cost (thetaPlus (cPert st.hp.c st.hp.gamma st.k) theta Delta)
            = Except.error e) ∨
         (∃ e, cost (thetaMinus (cPert st.hp.c st.hp.gamma st.k) theta Delta)
            = Except.error e)) :
    (∃ e, stepE cost st theta Delta = Except.error e) ∧
    ∀ st2 : OptState, ∀ v : Vec,
      stepE cost st theta Delta ≠ Except.ok (st2, v) := by
  cases hqp : cost (thetaPlus (cPert st.hp.c st.hp.gamma st.k) theta Delta) with
  | error e1 =>
      have hmain : stepE cost st theta Delta = Except.error e1 := by
        simp only [SPSA.stepE, hqp]
        rfl
      exact ⟨⟨e1, hmain⟩, fun st2 v hok => by rw [hmain] at hok; cases hok⟩
  | ok y =>
      rcases h with ⟨e1, he⟩ | ⟨e2, he⟩
      · rw [hqp] at he
        cases he
      · have hmain : stepE cost st theta Delta = Except.error e2 := by
          simp only [SPSA.stepE, hqp, he]
          rfl
        exact ⟨⟨e2, hmain⟩, fun st2 v hok => by rw [hmain] at hok; cases hok⟩

/-- Witness for C5 at a concrete input where already the first (y_plus)
evaluation fails: the cost function raises on every input. -/
theorem stepE_eval_error_witness :
    (∃ e, stepE (fun _ => Except.error (7 : ℕ)) ⟨⟨1, 1, 1, 1, 1⟩, 0⟩ [0] [1]
        = Except.error e) ∧
    ∀ st2 : OptState, ∀ v : Vec,
      stepE (fun _ => Except.error (7 : ℕ)) ⟨⟨1, 1, 1, 1, 1⟩, 0⟩ [0] [1]
        ≠ Except.ok (st2, v) :=
  stepE_eval_error _ ⟨⟨1, 1, 1, 1, 1⟩, 0⟩ [0] [1] (Or.inl ⟨7, rfl⟩)

/-- Claim C7: with a fixed seed, a deterministic cost function, identical
hyperparameters and the same initial vector, any two trajectories produced
by the run loop coincide: the draw sequence, and hence the whole
trajectory, is determined by the seed and the call order. -/
theorem traj_deterministic (cost : Vec → ℝ) (st : OptState) (theta0 : Vec)
    (seed n : ℕ) (t1 t2 : List Vec)
    (h1 : Traj cost st theta0 seed n t1)
    (h2 : Traj cost st theta0 seed n t2) : t1 = t2 := by
  induction h1 generalizing t2 with
  | done st theta s => cases h2; rfl
  | more st theta s n t ht ih =>
      cases h2 with
      | more _ _ _ _ t2tail ht2 => rw [ih t2tail ht2]

/-- Witness for C7: two independently built one-step trajectories from seed
50 and `theta0 = [0]` are equal. -/
theorem traj_deterministic_witness :
    ([0] : Vec) ::
        [(step (fun _ => 0) ⟨⟨1, 1, 1, 1, 1⟩, 0⟩ [0]
            (drawDelta ([0] : Vec).length 50).1).2]
      = ([0] : Vec) ::
        [(step (fun _ => 0) ⟨⟨1, 1, 1, 1, 1⟩, 0⟩ [0]
            (drawDelta ([0] : Vec).length 50).1).2] :=
  traj_deterministic (fun _ => 0) ⟨⟨1, 1, 1, 1, 1⟩, 0⟩ [0] 50 1 _ _
    (Traj.more _ _ _ _ _ (Traj.done _ _ _))
    (Traj.more _ _ _ _ _ (Traj.done _ _ _))

/-- How the SPSA driver loop transforms the history bindings: starting from
a script state whose device_execs_spsa name holds the list `xs`, the loop
appends one counter snapshot per iteration and advances the counter by both
execution increments of each iteration. -/
theorem spsaLoop_history (iters : List (ℝ × ℕ × ℕ)) (s : ScriptState)
    (xs : List ℕ) (hs : s.device_execs_spsa = PyVal.list xs) :
    (iters.foldl (fun acc it => spsaIter it.1 it.2.1 it.2.2 acc)
        s).device_execs_spsa
      = PyVal.list (xs ++ snapshots s.num_executions iters) := by
  induction iters generalizing s xs with
  | nil => simpa [Tutorial.snapshots] using hs
  | cons it rest ih =>
      have hstep : (spsaIter it.1 it.2.1 it.2.2 s).device_execs_spsa
          = PyVal.list (xs ++ [s.num_executions + it.2.1 + it.2.2]) := by
        simp [Tutorial.spsaIter, Tutorial.callback_fn, hs]
      have hnum : (spsaIter it.1 it.2.1 it.2.2 s).num_executions
          = s.num_executions + it.2.1 + it.2.2 := by
        simp [Tutorial.spsaIter, Tutorial.callback_fn]
      simp only [List.foldl_cons]
      rw [ih _ _ hstep, hnum]
      simp [Tutorial.snapshots, List.append_assoc]

/-- Claim C9: device_execs_spsa holds the per-iteration snapshot list right
up to the end of the optimization loop, and line 260 then rebinds the name
to the single scalar dev_sampler.num_executions, so the per-iteration
history is no longer what the name refers to. -/
theorem device_execs_spsa_rebound_to_scalar (iters : List (ℝ × ℕ × ℕ))
    (s : ScriptState) :
    (spsaBlockBeforeRebind iters s).device_execs_spsa
      = PyVal.list (snapshots s.num_executions iters) ∧
    (spsaBlock iters s).device_execs_spsa
      = PyVal.nat ((spsaBlockBeforeRebind iters s).num_executions) := by
  constructor
  · have h := spsaLoop_history iters
      { s with device_execs_spsa := PyVal.list [], cost_store_spsa := [] }
      [] rfl
    simpa [Tutorial.spsaBlockBeforeRebind] using h
  · rfl

/-- How the gradient-descent loop transforms the history bindings: it
appends one counter snapshot per iteration, starting from whatever counter
value the state carries when the loop begins. -/
theorem gradLoop_history (iters : List (ℝ × ℕ)) (s : ScriptState) :
    (iters.foldl (fun acc it => gradIter it.1 it.2 acc) s).device_execs_grad
      = s.device_execs_grad ++ gradSnapshots s.num_executions iters := by
  induction iters generalizing s with
  | nil => simp [Tutorial.gradSnapshots]
  | cons it rest ih =>
      simp only [List.foldl_cons]
      rw [ih]
      simp [Tutorial.gradIter, Tutorial.gradSnapshots, List.append_assoc]

/-- Every snapshot recorded by the gradient-descent loop is at least the
counter value the loop segment started from. -/
theorem gradSnapshots_head_le (c0 : ℕ) (iters : List (ℝ × ℕ)) :
    ∀ b ∈ (gradSnapshots c0 iters).head?, c0 ≤ b := by
  cases iters with
  | nil => simp [Tutorial.gradSnapshots]
  | cons it rest =>
      intro b hb
      simp [Tutorial.gradSnapshots] at hb
      subst hb
      exact Nat.le_add_right _ _

/-- The snapshots recorded by the gradient-descent loop form a
nondecreasing sequence. -/
theorem gradSnapshots_chain (c0 : ℕ) (iters : List (ℝ × ℕ)) :
    List.Chain' (· ≤ ·) (gradSnapshots c0 iters) := by
  induction iters generalizing c0 with
  | nil => simp [Tutorial.gradSnapshots]
  | cons it rest ih =>
      rw [show gradSnapshots c0 (it :: rest)
          = (c0 + it.2) :: gradSnapshots (c0 + it.2) rest from rfl]
      rw [List.chain'_cons']
      exact ⟨gradSnapshots_head_le _ _, ih _⟩

/-- Claim C10: resetting dev_sampler._num_executions to zero before the
gradient-descent loop makes every recorded entry of device_execs_grad count
only gradient-descent-phase executions — the result is independent of the
counter value left behind by the SPSA run — and the recorded sequence of
counts is nondecreasing across the loop's iterations. -/
theorem device_execs_grad_reset_and_monotone (iters : List (ℝ × ℕ))
    (s : ScriptState) :
    (gradBlock iters s).device_execs_grad = gradSnapshots 0 iters ∧
    List.Chain' (· ≤ ·) ((gradBlock iters s).device_execs_grad) := by
  have h : (gradBlock iters s).device_execs_grad = gradSnapshots 0 iters := by
    have hloop := gradLoop_history iters
      { resetExecs s with device_execs_grad := [], cost_store_grad := [] }
    simpa [Tutorial.gradBlock, Tutorial.resetExecs] using hloop
  exact ⟨h, h ▸ gradSnapshots_chain 0 iters⟩
